import Mathlib

/-!
Shallow embedding of the go-dbx database convenience layer (package `db`).

The embedding covers:
* `createFieldMap` and `parseDbResult` from `Helper.go` — the reflective
  row-to-record mapper;
* `Query` / `QueryAsync` from `Query.go`;
* `ExecuteInTransaction` / `ExecuteInTransactionAsync` from the transaction
  orchestrator file.

Go record types are modelled by the mutual inductive `Shape` / `Fields` /
`Field`: a field carries its Go name, its `db` tag (empty string when the tag
is absent), whether it is anonymous (embedded) and whether it is exported
(settable), plus the shape of its own type.  Record values are modelled by
`GoVal`; a writable field location (a Go pointer produced by
`field.Addr().Interface()`) is modelled by the index path from the record root
to that field.  A Go `map[string]any` of scan destinations is modelled
extensionally as a function `String → Option (List Nat)`; Go map insertion and
`for k, v := range` merging become `insertFM` and `mergeFM`.

Fallible Go code returns its `(value, error)` pair; a reflection panic
(`reflect.Value.NumField` on a non-struct value) is modelled by `Option.none`
on the outside.  The row cursor (`*sql.Rows`) is modelled by `Cursor`: the
result of `rows.Columns()`, the list of outcomes of the yielded rows (each row
either scans to a list of driver values or fails), and the terminal error
`rows.Err()`.
-/

namespace GoDbx

/-- Driver-level scalar values that can be scanned into record fields. -/
inductive Val where
  | intV : Int → Val
  | strV : String → Val
  | nullV : Val
deriving DecidableEq, Repr

/-- Errors observable through the package: database-layer errors, the
package's own `ErrInvalidDataType`, and errors produced by a caller-supplied
transaction scope function. -/
inductive Err where
  | dbErr : String → Err
  | errInvalidDataType : String → Err
  | scopeErr : String → Err
deriving DecidableEq, Repr

mutual

/-- The shape of a Go type as seen by `reflect`: either a non-struct (leaf)
type with its zero value, or a struct with a list of fields. -/
inductive Shape where
  | prim : Val → Shape
  | strct : Fields → Shape

/-- A list of struct fields (own inductive so that the mutual recursion with
`Shape` stays structural). -/
inductive Fields where
  | nil : Fields
  | cons : Field → Fields → Fields

/-- One struct field: Go field name, `db` tag (empty when absent), the
`Anonymous` flag, the exported/`CanSet` flag and the field's own shape. -/
inductive Field where
  | mk : (name tag : String) → (anon exported : Bool) → Shape → Field

end

/-- A Go record value: a scalar, or a struct value holding one value per
field (exported or not, in declaration order). -/
inductive GoVal where
  | prim : Val → GoVal
  | strct : List GoVal → GoVal
deriving Repr

mutual

/-- Zero value of a shape (`var item T`). -/
def zeroVal : Shape → GoVal
  | .prim z => .prim z
  | .strct fs => .strct (zeroFields fs)

/-- Zero values of a field list. -/
def zeroFields : Fields → List GoVal
  | .nil => []
  | .cons (.mk _ _ _ _ s) fs => zeroVal s :: zeroFields fs

end

/-- A field location inside a record value: the path of field indices from
the root (models the pointer `field.Addr().Interface()`). -/
abbrev Path := List Nat

/-- The Go `map[string]any` of scan destinations, modelled extensionally. -/
def FieldMap : Type := String → Option Path

/-- `make(map[string]any)`. -/
def emptyFM : FieldMap := fun _ => none

/-- `fieldMap[columnName] = field.Addr().Interface()`. -/
def insertFM (m : FieldMap) (k : String) (v : Path) : FieldMap :=
  fun c => if c = k then some v else m c

/-- `for k, v := range nestedMap { fieldMap[k] = v }`: entries of the nested
map override the accumulated map. -/
def mergeFM (acc nested : FieldMap) : FieldMap :=
  fun c =>
    match nested c with
    | some v => some v
    | none => acc c

/-- Model of `strings.ToLower` (character-wise lowering; identical to the Go
function on the ASCII identifiers Go field names are made of).  Defined on
the character list so that it reduces inside the kernel. -/
def lowerString (s : String) : String :=
  ⟨s.data.map Char.toLower⟩

mutual

/-- Embedding of `createFieldMap(val, columns, prefix)` from `Helper.go`.
`val.NumField()` panics when `val` is not a struct value: the panic is
modelled by `none`.  Otherwise the result is the Go `(map, error)` pair.
The unused `columns` argument of the Go function is dropped. -/
def createFieldMap : Shape → String → Path → Option (FieldMap × Option Err)
  | .prim _, _, _ => none
  | .strct fs, pre, p => goFields emptyFM fs pre p 0

/-- The field loop of `createFieldMap`: `acc` is the map built so far, `i`
the current field index. -/
def goFields : FieldMap → Fields → String → Path → Nat → Option (FieldMap × Option Err)
  | acc, .nil, _, _, _ => some (acc, none)
  | acc, .cons (.mk name tag anon exported s) fs, pre, p, i =>
    if !exported then
      -- Skip unexported fields
      goFields acc fs pre p (i + 1)
    else
      match s, anon with
      | .strct gs, true =>
        -- Handle embedded structs: recurse with the same column-name space
        match createFieldMap (.strct gs) pre (p ++ [i]) with
        | none => none
        | some (_, some e) => some (emptyFM, some e)
        | some (nested, none) => goFields (mergeFM acc nested) fs pre p (i + 1)
      | .strct gs, false =>
        -- Handle non-embedded nested structs
        let nestedPre := if tag = "" then lowerString name else tag
        let nestedPre := if pre = "" then nestedPre else pre ++ "_" ++ nestedPre
        match createFieldMap (.strct gs) nestedPre (p ++ [i]) with
        | none => none
        | some (_, some e) => some (emptyFM, some e)
        | some (nested, none) => goFields (mergeFM acc nested) fs pre p (i + 1)
      | .prim _, _ =>
        -- Handle regular fields
        let columnName := if tag = "" then lowerString name else tag
        let columnName := if pre = "" then columnName else pre ++ "_" ++ columnName
        goFields (insertFM acc columnName (p ++ [i])) fs pre p (i + 1)

end

/-- Write a scanned driver value through a field location (pointer) into a
record value. -/
def setVal : GoVal → Path → Val → GoVal
  | _, [], v => .prim v
  | .strct cs, i :: rest, v => .strct (cs.set i (setVal (cs.getD i (.prim .nullV)) rest v))
  | .prim z, _ :: _, _ => .prim z

/-- One `rows.Scan(scanDest...)` call on a successfully fetched row: the
columns are processed in order, a mapped column writes its value through the
corresponding field pointer, an unmapped column is scanned into a discarded
`dummy` destination. -/
def scanRow (fm : FieldMap) : List (String × Val) → GoVal → GoVal
  | [], item => item
  | (col, v) :: rest, item =>
    match fm col with
    | some ptr => scanRow fm rest (setVal item ptr v)
    | none => scanRow fm rest item

/-- The row cursor `*sql.Rows`: the outcome of `rows.Columns()`, the rows
yielded by `rows.Next()` (each either scanning to its driver values or
failing in `rows.Scan`), and the terminal error `rows.Err()`. -/
structure Cursor where
  colsRes : Except Err (List String)
  rows : List (Except Err (List Val))
  termErr : Option Err

/-- The `for rows.Next()` loop of `parseDbResult`: builds the field map for a
fresh zero item, scans the row, appends the item; ends by returning the
accumulated result together with `rows.Err()`.  `none` models a reflection
panic. -/
def rowLoop (shape : Shape) (columns : List String) (tErr : Option Err) :
    List (Except Err (List Val)) → List GoVal → Option (List GoVal × Option Err)
  | [], acc => some (acc, tErr)
  | row :: rest, acc =>
    match createFieldMap shape "" [] with
    | none => none
    | some (_, some e) => some ([], some e)
    | some (fm, none) =>
      match row with
      | .error e => some ([], some e)
      | .ok vals =>
        rowLoop shape columns tErr rest (acc ++ [scanRow fm (columns.zip vals) (zeroVal shape)])

/-- Embedding of `parseDbResult[T](rows)` from `Helper.go`, returning the Go
`([]T, error)` pair (`none` models a reflection panic; the nil slice of an
error return is the empty list). -/
def parseDbResult (shape : Shape) (c : Cursor) : Option (List GoVal × Option Err) :=
  match c.colsRes with
  | .error e => some ([], some e)
  | .ok columns => rowLoop shape columns c.termErr c.rows []

/-- Embedding of `Query[T](ctx, conn, query, args...)` from `Query.go`.  The
session behaviour `conn.QueryContext` is abstracted as its outcome: either a
database error or a cursor. -/
def Query (shape : Shape) (sess : Except Err Cursor) : Option (List GoVal × Option Err) :=
  match sess with
  | .error e => some ([], some e)
  | .ok rows =>
    match parseDbResult shape rows with
    | none => none
    | some (_, some e) => some ([], some e)
    | some (result, none) => some (result, none)

/-- Invocations performed on the transaction handle `*sql.Tx`. -/
inductive TxOp where
  | commit
  | rollback
deriving DecidableEq, BEq, Repr

/-- Outcome of the caller-supplied `TransactionScopeFunction`: a result, an
error, or an abnormal abort (panic). -/
inductive ScopeOutcome (T : Type) where
  | ok : T → ScopeOutcome T
  | err : Err → ScopeOutcome T
  | panicked : ScopeOutcome T

/-- Embedding of `ExecuteInTransaction[T](ctx, db, tsf, opts...)`.  The
collaborators are abstracted by their outcomes: `beginRes` is the error of
`db.BeginTx` (when `none`, a handle is obtained), `scope` the outcome of the
scope function on that handle, `commitErr` the error `tx.Commit` would
produce.  The first component of the result is the Go `(T, error)` pair
(`none` when the function aborts abnormally because the scope function
panicked; the deferred `tx.Rollback()` still runs in that case).  The second
component is the ordered trace of invocations of commit/rollback on the
handle: `defer tx.Rollback()` appends a rollback invocation on every exit
path that follows a successful `BeginTx`. -/
def ExecuteInTransaction {T : Type} (zeroT : T) (beginRes : Option Err)
    (scope : ScopeOutcome T) (commitErr : Option Err) :
    Option (T × Option Err) × List TxOp :=
  match beginRes with
  | some e => (some (zeroT, some e), [])
  | none =>
    -- defer tx.Rollback() is registered here
    let body : Option (T × Option Err) × List TxOp :=
      match scope with
      | .panicked => (none, [])
      | .err e => (some (zeroT, some e), [])
      | .ok r =>
        match commitErr with
        | some e => (some (zeroT, some e), [.commit])
        | none => (some (r, none), [.commit])
    (body.1, body.2 ++ [.rollback])

/-- Lifecycle state of a transaction handle. -/
inductive TxState where
  | openTx
  | committed
  | rolledBack
deriving DecidableEq, Repr

/-- Is the handle terminated? -/
def TxState.isTerminal : TxState → Bool
  | .openTx => false
  | .committed => true
  | .rolledBack => true

/-- Effect of one commit/rollback invocation on the handle, following the
spec's external interface: a successful commit terminates an open handle, a
failed commit leaves it non-committed, rollback terminates an open handle,
and either call on an already terminal handle is a safe no-op. -/
def stepTx (commitOk : Bool) : TxState → TxOp → TxState
  | .openTx, .commit => if commitOk then .committed else .openTx
  | .openTx, .rollback => .rolledBack
  | s, _ => s

/-- Run a trace of handle invocations, returning the final handle state and
the number of invocations that effectively changed the state (effective
terminations). -/
def runTx (commitOk : Bool) : TxState → List TxOp → TxState × Nat
  | s, [] => (s, 0)
  | s, op :: rest =>
    let s1 := stepTx commitOk s op
    let r := runTx commitOk s1 rest
    (r.1, (if s1 = s then 0 else 1) + r.2)

/-- Modelled from the spec: the background execution capability
(`async.Do` of the external `github.com/uoul/go-async` dependency, which is
not part of this repository) schedules a unit of work and returns a one-shot
asynchronous result that is resolved exactly once with the value/error pair
the unit of work produces.  `resolutions` lists every value the result is
resolved with. -/
structure AsyncResult (V : Type) where
  resolutions : List V

/-- Modelled from the spec: `async.Do(ctx, f)` runs `f` once and resolves
the result exactly once with its outcome. -/
def asyncDo {V : Type} (f : Unit → V) : AsyncResult V :=
  ⟨[f ()]⟩

/-- Embedding of `QueryAsync[T]` from `Query.go`: wraps `Query` in the
background execution capability. -/
def QueryAsync (shape : Shape) (sess : Except Err Cursor) :
    AsyncResult (Option (List GoVal × Option Err)) :=
  asyncDo (fun _ => Query shape sess)

/-- Embedding of `ExecuteInTransactionAsync[T]`: wraps `ExecuteInTransaction`
in the background execution capability. -/
def ExecuteInTransactionAsync {T : Type} (zeroT : T) (beginRes : Option Err)
    (scope : ScopeOutcome T) (commitErr : Option Err) :
    AsyncResult (Option (T × Option Err) × List TxOp) :=
  asyncDo (fun _ => ExecuteInTransaction zeroT beginRes scope commitErr)

/-- The content of an optional error as a list. -/
def optErrList : Option Err → List Err
  | some e => [e]
  | none => []

/-- The scan errors carried by a list of row outcomes. -/
def rowErrs : List (Except Err (List Val)) → List Err
  | [] => []
  | .error e :: rest => e :: rowErrs rest
  | .ok _ :: rest => rowErrs rest

/-- Every error a cursor can surface: the column-read error, the per-row scan
errors, and the terminal error.  All of these originate in the database
layer. -/
def cursorErrors (c : Cursor) : List Err :=
  (match c.colsRes with
   | .error e => [e]
   | .ok _ => []) ++ rowErrs c.rows ++ optErrList c.termErr

/-- Every error a session outcome can surface: the query-execution error or
the cursor's errors. -/
def sessionErrors : Except Err Cursor → List Err
  | .error e => [e]
  | .ok c => cursorErrors c

/-- The error carried by a scope-function outcome, as a list. -/
def scopeErrList {T : Type} : ScopeOutcome T → List Err
  | .err e => [e]
  | _ => []

/-- Every error the transaction collaborators can surface: the begin error,
the scope function's error, and the commit error. -/
def txInputErrors {T : Type} (beginRes : Option Err) (scope : ScopeOutcome T)
    (commitErr : Option Err) : List Err :=
  optErrList beginRes ++ scopeErrList scope ++ optErrList commitErr

/-! ### Concrete record shapes and cursors used by individual claims -/

/-- The record shape of the spec scenario
`{ID int db:"id"; Address struct{Street string} db:"address_"}`. -/
def addrShape : Shape :=
  .strct (.cons (.mk "ID" "id" false true (.prim (.intV 0)))
    (.cons (.mk "Address" "address_" false true
      (.strct (.cons (.mk "Street" "" false true (.prim (.strV ""))) .nil)))
     .nil))

/-- The cursor of the spec scenario: columns `["id","address_street"]`, one
row `(1, "Main St")`, no terminal error. -/
def addrCursor : Cursor :=
  ⟨.ok ["id", "address_street"], [.ok [.intV 1, .strV "Main St"]], none⟩

/-- Triple-nested record shape `O (tag "outer") { I (tag "inner") { L (tag
"leaf") int } }` for the transitive-prefix example. -/
def outerShape : Shape :=
  .strct (.cons (.mk "O" "outer" false true
    (.strct (.cons (.mk "I" "inner" false true
      (.strct (.cons (.mk "L" "leaf" false true (.prim (.intV 0))) .nil))) .nil))) .nil)

/-- A record with an embedded (anonymous) struct field carrying a tag, next
to a sibling leaf field: `{E struct{B int} (embedded, tag "ignored"); A int}`. -/
def embShape : Shape :=
  .strct (.cons (.mk "E" "ignored" true true
      (.strct (.cons (.mk "B" "" false true (.prim (.intV 0))) .nil)))
    (.cons (.mk "A" "" false true (.prim (.intV 0))) .nil))

/-! ### Helper lemmas about the field-map construction and the row loop -/

/-- The field loop never produces an error, for any field list whose size is
bounded by `n` (strong induction on the size bound, which also covers the
mutual recursion into nested struct shapes). -/
theorem goFields_ok_aux :
    ∀ (n : Nat) (fs : Fields), sizeOf fs ≤ n →
      ∀ (acc : FieldMap) (pre : String) (p : Path) (i : Nat),
        ∃ m, goFields acc fs pre p i = some (m, none) := by
  intro n
  induction n with
  | zero =>
    intro fs h
    cases fs with
    | nil => intro acc pre p i; exact ⟨acc, rfl⟩
    | cons f fs' =>
      exfalso
      cases f with
      | mk name tag anon exported s =>
        simp [Fields.cons.sizeOf_spec, Field.mk.sizeOf_spec] at h
  | succ n ih =>
    intro fs h
    cases fs with
    | nil => intro acc pre p i; exact ⟨acc, rfl⟩
    | cons f fs' =>
      cases f with
      | mk name tag anon exported s =>
        intro acc pre p i
        have hfs' : sizeOf fs' ≤ n := by
          have h2 := h
          simp [Fields.cons.sizeOf_spec, Field.mk.sizeOf_spec] at h2
          omega
        cases exported with
        | false =>
          obtain ⟨m, hm⟩ := ih fs' hfs' acc pre p (i + 1)
          exact ⟨m, by simpa [goFields] using hm⟩
        | true =>
          cases s with
          | prim v =>
            obtain ⟨m, hm⟩ :=
              ih fs' hfs'
                (insertFM acc
                  (if pre = "" then (if tag = "" then lowerString name else tag)
                   else pre ++ "_" ++ (if tag = "" then lowerString name else tag)) (p ++ [i]))
                pre p (i + 1)
            exact ⟨m, by simpa [goFields] using hm⟩
          | strct gs =>
            have hgs : sizeOf gs ≤ n := by
              have h2 := h
              simp [Fields.cons.sizeOf_spec, Field.mk.sizeOf_spec,
                Shape.strct.sizeOf_spec] at h2
              omega
            cases anon with
            | true =>
              obtain ⟨m1, hm1⟩ := ih gs hgs emptyFM pre (p ++ [i]) 0
              obtain ⟨m, hm⟩ := ih fs' hfs' (mergeFM acc m1) pre p (i + 1)
              refine ⟨m, ?_⟩
              simp only [goFields, createFieldMap, hm1]
              exact hm
            | false =>
              obtain ⟨m1, hm1⟩ :=
                ih gs hgs emptyFM
                  (if pre = "" then (if tag = "" then lowerString name else tag)
                   else pre ++ "_" ++ (if tag = "" then lowerString name else tag)) (p ++ [i]) 0
              obtain ⟨m, hm⟩ := ih fs' hfs' (mergeFM acc m1) pre p (i + 1)
              refine ⟨m, ?_⟩
              simp only [goFields, createFieldMap, hm1]
              exact hm

/-- `createFieldMap` on any struct shape returns a map and a nil error. -/
theorem createFieldMap_strct_ok (fs : Fields) (pre : String) (p : Path) :
    ∃ m, createFieldMap (.strct fs) pre p = some (m, none) := by
  have h := goFields_ok_aux (sizeOf fs) fs (Nat.le_refl _) emptyFM pre p 0
  simpa [createFieldMap] using h

/-- Whenever `createFieldMap` returns normally, the error component is nil. -/
theorem createFieldMap_no_err (s : Shape) (pre : String) (p : Path)
    (m : FieldMap) (e : Option Err)
    (h : createFieldMap s pre p = some (m, e)) : e = none := by
  cases s with
  | prim v => simp [createFieldMap] at h
  | strct fs =>
    obtain ⟨m', hm'⟩ := createFieldMap_strct_ok fs pre p
    rw [hm'] at h
    exact (Prod.mk.injEq _ _ _ _ ▸ (Option.some.injEq _ _ ▸ h)).2.symm ▸ rfl

/-- An error surfaced by the row loop is one of the cursor's scan errors or
its terminal error. -/
theorem rowLoop_err_mem (s : Shape) (cols : List String) (tErr : Option Err) :
    ∀ (rows : List (Except Err (List Val))) (acc : List GoVal) (r : List GoVal) (e : Err),
      rowLoop s cols tErr rows acc = some (r, some e) →
      e ∈ rowErrs rows ++ optErrList tErr := by
  intro rows
  induction rows with
  | nil =>
    intro acc r e h
    simp [rowLoop] at h
    simp [rowErrs, optErrList, h.2]
  | cons row rest ihr =>
    intro acc r e h
    rw [rowLoop] at h
    cases hc : createFieldMap s "" [] with
    | none => rw [hc] at h; exact absurd h (by simp)
    | some pr =>
      obtain ⟨m, oe⟩ := pr
      have hoe : oe = none := createFieldMap_no_err s "" [] m oe hc
      subst hoe
      rw [hc] at h
      cases row with
      | error e1 =>
        simp at h
        simp [rowErrs, h.2]
      | ok vals =>
        simp at h
        have hmem := ihr _ r e h
        simpa [rowErrs] using hmem

/-- When the row loop ends without error, the accumulated collection has one
record per yielded row. -/
theorem rowLoop_length (s : Shape) (cols : List String) (tErr : Option Err) :
    ∀ (rows : List (Except Err (List Val))) (acc : List GoVal) (r : List GoVal),
      rowLoop s cols tErr rows acc = some (r, none) →
      r.length = acc.length + rows.length := by
  intro rows
  induction rows with
  | nil =>
    intro acc r h
    simp [rowLoop] at h
    simp [h.1]
  | cons row rest ihr =>
    intro acc r h
    rw [rowLoop] at h
    cases hc : createFieldMap s "" [] with
    | none => rw [hc] at h; exact absurd h (by simp)
    | some pr =>
      obtain ⟨m, oe⟩ := pr
      have hoe : oe = none := createFieldMap_no_err s "" [] m oe hc
      subst hoe
      rw [hc] at h
      cases row with
      | error e1 => simp at h
      | ok vals =>
        simp at h
        have := ihr _ r h
        simp at this
        simp [this]
        omega

/-- On a struct shape the row loop never panics. -/
theorem rowLoop_strct_isSome (fs : Fields) (cols : List String) (tErr : Option Err) :
    ∀ (rows : List (Except Err (List Val))) (acc : List GoVal),
      (rowLoop (.strct fs) cols tErr rows acc).isSome = true := by
  intro rows
  induction rows with
  | nil => intro acc; simp [rowLoop]
  | cons row rest ihr =>
    intro acc
    rw [rowLoop]
    obtain ⟨m, hm⟩ := createFieldMap_strct_ok fs "" []
    rw [hm]
    cases row with
    | error e1 => simp
    | ok vals => exact ihr _

/-- On a struct shape, when every yielded row scans successfully and there is
no terminal error, the row loop returns a collection and a nil error. -/
theorem rowLoop_ok_rows (fs : Fields) (cols : List String) :
    ∀ (rows : List (Except Err (List Val))) (acc : List GoVal),
      (∀ x ∈ rows, ∃ vals, x = Except.ok vals) →
      ∃ res, rowLoop (.strct fs) cols none rows acc = some (res, none) := by
  intro rows
  induction rows with
  | nil => intro acc _; exact ⟨acc, rfl⟩
  | cons row rest ihr =>
    intro acc hrows
    obtain ⟨vals, hv⟩ := hrows row (by simp)
    subst hv
    obtain ⟨m, hm⟩ := createFieldMap_strct_ok fs "" []
    obtain ⟨res, hres⟩ := ihr (acc ++ [scanRow m (cols.zip vals) (zeroVal (.strct fs))])
      (fun x hx => hrows x (by simp [hx]))
    refine ⟨res, ?_⟩
    rw [rowLoop, hm]
    exact hres

/-- An error surfaced by `parseDbResult` is one of the cursor's errors. -/
theorem parseDbResult_err_mem (s : Shape) (c : Cursor) (r : List GoVal) (e : Err)
    (h : parseDbResult s c = some (r, some e)) : e ∈ cursorErrors c := by
  obtain ⟨cr, rows, tErr⟩ := c
  cases cr with
  | error e1 =>
    simp [parseDbResult] at h
    simp [cursorErrors, h.2]
  | ok cols =>
    rw [parseDbResult] at h
    simp only at h
    have hmem := rowLoop_err_mem s cols tErr rows [] r e h
    simpa [cursorErrors] using hmem

/-! ### Claim theorems -/

/-- Claim C3: evaluating the code at the failing input of the documented
scenario.  For the record `{ID int db:"id"; Address struct{Street string}
db:"address_"}` and cursor columns `["id","address_street"]` with one row
`(1,"Main St")`, `Query` returns `{ID: 1, Address: {Street: ""}}` with no
error: the nested-struct tag `"address_"` is joined to the inner name with a
further `"_"` separator, so the resolved column for `Street` is
`"address__street"`, the cursor column `"address_street"` is unmapped, and
`Street` keeps its zero value instead of `"Main St"` as the repository's own
README and the spec scenario promise. -/
theorem c3_address_tag_scenario :
    Query addrShape (.ok addrCursor) =
      some ([GoVal.strct [GoVal.prim (Val.intV 1),
        GoVal.strct [GoVal.prim (Val.strV "")]]], none) ∧
    (createFieldMap addrShape "" []).map
        (fun pr => (pr.1 "address_street", pr.1 "address__street", pr.2)) =
      some (none, some [1, 0], none) :=
  ⟨rfl, rfl⟩

/-- Claim C6: if the scope function returns a non-nil error, the returned
error equals the scope function's error, the zero value of `T` is returned,
and the handle trace is exactly one rollback invocation — in particular
commit is never called. -/
theorem c6_scope_error_rolls_back :
    ∀ (T : Type) (z : T) (e : Err) (ce : Option Err),
      ExecuteInTransaction z none (.err e) ce = (some (z, some e), [TxOp.rollback]) := by
  intro T z e ce
  rfl

/-- Claim C8: the asynchronous entry points are behavioural refinements of
their synchronous counterparts: for the same arguments the asynchronous
result is resolved exactly once, with exactly the value/error pair `Query`
respectively `ExecuteInTransaction` produces.  (The background execution
capability itself is modelled from the spec, since `go-async` is an external
dependency.) -/
theorem c8_async_refines_sync :
    ∀ (shape : Shape) (sess : Except Err Cursor) (T : Type) (z : T)
      (b : Option Err) (sc : ScopeOutcome T) (ce : Option Err),
      (QueryAsync shape sess).resolutions = [Query shape sess] ∧
      (ExecuteInTransactionAsync z b sc ce).resolutions =
        [ExecuteInTransaction z b sc ce] := by
  intro shape sess T z b sc ce
  exact ⟨rfl, rfl⟩

/-- Claim C1, counterexample to the claim as stated: on the success path the
code invokes commit once and then — through the deferred `tx.Rollback()` —
also invokes rollback once, so it is not the case that exactly one of
{commit, rollback} is invoked on the handle. -/
theorem c1_success_invokes_both :
    (ExecuteInTransaction (0 : Int) none (.ok 42) none).2 = [TxOp.commit, TxOp.rollback] ∧
    [TxOp.commit, TxOp.rollback].count TxOp.commit = 1 ∧
    [TxOp.commit, TxOp.rollback].count TxOp.rollback = 1 :=
  ⟨rfl, rfl, rfl⟩

/-- Claim C1 (amended): for every scope-function outcome after a successful
begin, the invocation trace terminates the handle effectively exactly once
(commit and rollback calls on an already terminal handle, and a failed
commit, do not transition the handle), the final handle state is terminal,
and when commit fails the returned error is the commit error with rollback
having been invoked afterwards. -/
theorem c1_handle_terminated_exactly_once :
    (∀ (T : Type) (z : T) (sc : ScopeOutcome T) (ce : Option Err),
      (runTx ce.isNone .openTx (ExecuteInTransaction z none sc ce).2).2 = 1 ∧
      (runTx ce.isNone .openTx (ExecuteInTransaction z none sc ce).2).1.isTerminal = true) ∧
    (∀ (T : Type) (z : T) (r : T) (e : Err),
      ExecuteInTransaction z none (.ok r) (some e) =
        (some (z, some e), [TxOp.commit, TxOp.rollback])) := by
  constructor
  · intro T z sc ce
    cases sc with
    | ok r =>
      cases ce with
      | none => exact ⟨rfl, rfl⟩
      | some e => exact ⟨rfl, rfl⟩
    | err e =>
      cases ce with
      | none => exact ⟨rfl, rfl⟩
      | some e1 => exact ⟨rfl, rfl⟩
    | panicked =>
      cases ce with
      | none => exact ⟨rfl, rfl⟩
      | some e1 => exact ⟨rfl, rfl⟩
  · intro T z r e
    rfl

/-- Claim C4: column-name resolution.  (1) An anonymous/embedded struct
field's fields are merged into the current namespace with no added name
part, for every tag (the tag `t` does not occur on the right-hand side).
(2) A named nested struct field's inner names are resolved against the
combined name part `pre ++ "_" ++ (tag or lower-cased field name)`, so
name parts compose transitively with separator `"_"`.  (3) On the concrete
triple-nested shape the leaf resolves to `"outer_inner_leaf"`, and on the
concrete embedded shape the embedded field's leaf binds without any added
name part next to its sibling. -/
theorem c4_column_name_resolution :
    (∀ (n t : String) (gs : Fields) (pre : String) (p : Path) (c : String),
      (createFieldMap (.strct (.cons (.mk n t true true (.strct gs)) .nil)) pre p).map
          (fun pr => (pr.1 c, pr.2)) =
        (createFieldMap (.strct gs) pre (p ++ [0])).map (fun pr => (pr.1 c, pr.2)) ∧
      (createFieldMap (.strct (.cons (.mk n t true true (.strct gs)) .nil)) pre p).isSome
        = true) ∧
    (∀ (n t : String) (gs : Fields) (pre : String) (p : Path) (c : String),
      (createFieldMap (.strct (.cons (.mk n t false true (.strct gs)) .nil)) pre p).map
          (fun pr => (pr.1 c, pr.2)) =
        (createFieldMap (.strct gs)
            (if pre = "" then (if t = "" then lowerString n else t)
             else pre ++ "_" ++ (if t = "" then lowerString n else t)) (p ++ [0])).map
          (fun pr => (pr.1 c, pr.2))) ∧
    ((createFieldMap outerShape "" []).map (fun pr => pr.1 "outer_inner_leaf") =
        some (some [0, 0, 0]) ∧
      (createFieldMap embShape "" []).map
          (fun pr => (pr.1 "b", pr.1 "a", pr.1 "ignored_b")) =
        some (some [0, 0], some [1], none)) := by
  refine ⟨?_, ?_, rfl, rfl⟩
  · intro n t gs pre p c
    obtain ⟨m1, hm1⟩ := createFieldMap_strct_ok gs pre (p ++ [0])
    have hm1' : goFields emptyFM gs pre (p ++ [0]) 0 = some (m1, none) := by
      simpa [createFieldMap] using hm1
    constructor
    · simp only [createFieldMap, goFields, Bool.not_true, hm1']
      cases hm : m1 c <;> simp [mergeFM, emptyFM, hm]
    · simp only [createFieldMap, goFields, Bool.not_true, hm1']
      rfl
  · intro n t gs pre p c
    obtain ⟨m1, hm1⟩ := createFieldMap_strct_ok gs
      (if pre = "" then (if t = "" then lowerString n else t)
       else pre ++ "_" ++ (if t = "" then lowerString n else t)) (p ++ [0])
    have hm1' : goFields emptyFM gs
        (if pre = "" then (if t = "" then lowerString n else t)
         else pre ++ "_" ++ (if t = "" then lowerString n else t)) (p ++ [0]) 0 =
        some (m1, none) := by
      simpa [createFieldMap] using hm1
    simp only [createFieldMap, goFields, Bool.not_true, hm1']
    cases hm : m1 c <;> simp [mergeFM, emptyFM, hm]

/-- Claim C2, counterexample to the claim as stated: when the cursor's
terminal error state is set after the row loop, the row mapper
`parseDbResult` returns the accumulated partial collection (here of length
one) alongside the non-nil terminal error. -/
theorem c2_mapper_partial_alongside_error :
    (parseDbResult (Shape.strct .nil)
        ⟨.ok ["a"], [.ok [Val.intV 5]], some (Err.dbErr "boom")⟩).map
      (fun pr => (pr.1.length, pr.2)) = some (1, some (Err.dbErr "boom")) :=
  rfl

/-- Claim C2 (amended): whenever `Query` returns a non-nil error, the
returned collection is nil — `Query` discards the partial collection the
mapper may have accumulated. -/
theorem c2_query_error_implies_empty :
    ∀ (s : Shape) (sess : Except Err Cursor) (r : List GoVal) (e : Err),
      Query s sess = some (r, some e) → r = [] := by
  intro s sess r e h
  cases sess with
  | error e1 =>
    simp only [Query] at h
    exact ((Prod.mk.injEq _ _ _ _).mp (Option.some.inj h)).1.symm
  | ok c =>
    simp only [Query] at h
    cases hp : parseDbResult s c with
    | none => rw [hp] at h; exact absurd h (by simp)
    | some pr =>
      obtain ⟨r1, oe⟩ := pr
      cases oe with
      | none => rw [hp] at h; simp at h
      | some e1 =>
        rw [hp] at h
        exact ((Prod.mk.injEq _ _ _ _).mp (Option.some.inj h)).1.symm

/-- Witness for claim C2's amended theorem at a concrete erroring session. -/
theorem c2_witness :
    Query (Shape.strct .nil) (.error (Err.dbErr "x")) = some ([], some (Err.dbErr "x")) ∧
    ([] : List GoVal) = [] :=
  ⟨rfl, c2_query_error_implies_empty (Shape.strct .nil) (.error (Err.dbErr "x"))
    [] (Err.dbErr "x") rfl⟩

/-- Claim C5: unmapped columns are harmless.  (1) A column without a field
binding contributes nothing to the scanned record: deleting it (and its
value) from the scan changes nothing, wherever it occurs.  (2) Unmapped
columns never cause an error: on a struct shape, whenever every yielded row
scans successfully and there is no terminal error, `Query` returns with a
nil error for every column list, mapped or not. -/
theorem c5_unmapped_columns_harmless :
    (∀ (fm : FieldMap) (c : String) (v : Val) (l1 l2 : List (String × Val)) (item : GoVal),
      fm c = none →
      scanRow fm (l1 ++ (c, v) :: l2) item = scanRow fm (l1 ++ l2) item) ∧
    (∀ (fs : Fields) (cols : List String) (rows : List (Except Err (List Val))),
      (∀ x ∈ rows, ∃ vals, x = Except.ok vals) →
      (Query (.strct fs) (.ok ⟨.ok cols, rows, none⟩)).map (fun pr => pr.2) = some none) := by
  constructor
  · intro fm c v l1 l2 item hc
    induction l1 generalizing item with
    | nil => simp [scanRow, hc]
    | cons hd tl ih =>
      obtain ⟨col1, v1⟩ := hd
      cases h1 : fm col1 with
      | none =>
        simp only [List.cons_append, scanRow, h1]
        exact ih item
      | some ptr =>
        simp only [List.cons_append, scanRow, h1]
        exact ih (setVal item ptr v1)
  · intro fs cols rows hrows
    obtain ⟨res, hres⟩ := rowLoop_ok_rows fs cols rows [] hrows
    simp [Query, parseDbResult, hres]

/-- Witness for claim C5 at a concrete unmapped column and row set. -/
theorem c5_witness :
    emptyFM "x" = none ∧
    scanRow emptyFM ([] ++ ("x", Val.intV 7) :: []) (GoVal.strct []) =
      scanRow emptyFM ([] ++ []) (GoVal.strct []) ∧
    (Query (.strct .nil) (.ok ⟨.ok ["a"], [Except.ok [Val.intV 5]], none⟩)).map
      (fun pr => pr.2) = some none :=
  ⟨rfl,
   c5_unmapped_columns_harmless.1 emptyFM "x" (Val.intV 7) [] [] (GoVal.strct []) rfl,
   c5_unmapped_columns_harmless.2 .nil ["a"] [Except.ok [Val.intV 5]]
     (by intro x hx; simp at hx; exact ⟨[Val.intV 5], hx⟩)⟩

/-- Claim C7, counterexample to the claim as stated: with one successfully
yielded row followed by a row whose scan fails, `Query` does not return a
collection of length one (the rows yielded before the scan failure); it
aborts and returns the nil collection alongside the scan error. -/
theorem c7_scan_failure_aborts :
    Query (Shape.strct .nil)
        (.ok ⟨.ok ["a"], [.ok [Val.intV 5], .error (Err.dbErr "scanfail")], none⟩) =
      some ([], some (Err.dbErr "scanfail")) ∧
    decide ((([] : List GoVal)).length = 1) = false :=
  ⟨rfl, rfl⟩

/-- Claim C7 (amended): when `Query` returns without error, the collection's
length equals the number of rows the cursor yielded; on a scan failure the
whole operation aborts with that error and the nil collection; with zero
rows and no error the returned collection is empty, not an error. -/
theorem c7_success_length_matches_rows :
    (∀ (s : Shape) (c : Cursor) (r : List GoVal),
      Query s (.ok c) = some (r, none) → r.length = c.rows.length) ∧
    (∀ (s : Shape) (cols : List String),
      Query s (.ok ⟨.ok cols, [], none⟩) = some ([], none)) := by
  constructor
  · intro s c r h
    simp only [Query] at h
    cases hp : parseDbResult s c with
    | none => rw [hp] at h; exact absurd h (by simp)
    | some pr =>
      obtain ⟨r1, oe⟩ := pr
      cases oe with
      | some e1 => rw [hp] at h; simp at h
      | none =>
        rw [hp] at h
        have hr : r1 = r := ((Prod.mk.injEq _ _ _ _).mp (Option.some.inj h)).1
        subst hr
        obtain ⟨cr, rows, tErr⟩ := c
        cases cr with
        | error e1 => simp [parseDbResult] at hp
        | ok cols =>
          have := rowLoop_length s cols tErr rows [] r1 hp
          simpa using this
  · intro s cols
    rfl

/-- Witness for claim C7's amended theorem at a concrete two-row cursor. -/
theorem c7_witness :
    Query (Shape.strct .nil)
        (.ok ⟨.ok ["a"], [Except.ok [Val.intV 5], Except.ok [Val.intV 6]], none⟩) =
      some ([GoVal.strct [], GoVal.strct []], none) ∧
    ([GoVal.strct [], GoVal.strct []] : List GoVal).length =
      ([Except.ok [Val.intV 5], Except.ok [Val.intV 6]] :
        List (Except Err (List Val))).length :=
  ⟨rfl, c7_success_length_matches_rows.1 (Shape.strct .nil)
    ⟨.ok ["a"], [Except.ok [Val.intV 5], Except.ok [Val.intV 6]], none⟩
    [GoVal.strct [], GoVal.strct []] rfl⟩

/-- Claim C9: for a non-struct record type the mapper is not total — as soon
as the cursor yields a row, `createFieldMap` calls `NumField` on a
non-struct value and the whole of `Query` aborts abnormally instead of
returning an error value; on struct shapes `parseDbResult` always returns
normally. -/
theorem c9_nonstruct_type_panics :
    (∀ (z : Val) (c : Cursor) (cols : List String),
      c.colsRes = .ok cols → c.rows ≠ [] → Query (.prim z) (.ok c) = none) ∧
    (∀ (fs : Fields) (c : Cursor), (parseDbResult (.strct fs) c).isSome = true) := by
  constructor
  · intro z c cols hcols hrows
    obtain ⟨cr, rows, tErr⟩ := c
    simp only at hcols
    subst hcols
    cases rows with
    | nil => simp at hrows
    | cons row rest => rfl
  · intro fs c
    obtain ⟨cr, rows, tErr⟩ := c
    cases cr with
    | error e1 => simp [parseDbResult]
    | ok cols => exact rowLoop_strct_isSome fs cols tErr rows []

/-- Witness for claim C9 at a concrete one-row cursor over a non-struct
(integer) record type, and the struct-totality part at the same cursor. -/
theorem c9_witness :
    (⟨.ok ["a"], [Except.ok []], none⟩ : Cursor).colsRes = .ok ["a"] ∧
    Query (.prim (Val.intV 0)) (.ok ⟨.ok ["a"], [Except.ok []], none⟩) = none ∧
    (parseDbResult (.strct .nil) ⟨.ok ["a"], [Except.ok []], none⟩).isSome = true :=
  ⟨rfl,
   c9_nonstruct_type_panics.1 (Val.intV 0) ⟨.ok ["a"], [Except.ok []], none⟩ ["a"]
     rfl (by simp),
   c9_nonstruct_type_panics.2 .nil ⟨.ok ["a"], [Except.ok []], none⟩⟩

/-- Claim C10: the mapping layer never produces an error of its own.  (1)
`createFieldMap` returns a nil error for every struct shape, name part and
base path — in particular `ErrInvalidDataType` is never produced.  (2) Every
error `Query` returns is carried by the session/cursor, i.e. originates in
the database layer.  (3) Every error `ExecuteInTransaction` returns is the
begin error, the scope function's error, or the commit error. -/
theorem c10_no_mapping_errors :
    (∀ (fs : Fields) (pre : String) (p : Path),
      ∃ m, createFieldMap (.strct fs) pre p = some (m, none)) ∧
    (∀ (s : Shape) (sess : Except Err Cursor) (r : List GoVal) (e : Err),
      Query s sess = some (r, some e) → e ∈ sessionErrors sess) ∧
    (∀ (T : Type) (z : T) (b : Option Err) (sc : ScopeOutcome T) (ce : Option Err)
      (t1 : T) (e : Err) (tr : List TxOp),
      ExecuteInTransaction z b sc ce = (some (t1, some e), tr) →
      e ∈ txInputErrors b sc ce) := by
  refine ⟨createFieldMap_strct_ok, ?_, ?_⟩
  · intro s sess r e h
    cases sess with
    | error e1 =>
      simp only [Query] at h
      have he : e1 = e := by
        have h2 := ((Prod.mk.injEq _ _ _ _).mp (Option.some.inj h)).2
        exact Option.some.inj h2
      subst he
      simp [sessionErrors]
    | ok c =>
      simp only [Query] at h
      cases hp : parseDbResult s c with
      | none => rw [hp] at h; exact absurd h (by simp)
      | some pr =>
        obtain ⟨r1, oe⟩ := pr
        cases oe with
        | none => rw [hp] at h; simp at h
        | some e1 =>
          rw [hp] at h
          have he : e1 = e := by
            have h2 := ((Prod.mk.injEq _ _ _ _).mp (Option.some.inj h)).2
            exact Option.some.inj h2
          subst he
          simpa [sessionErrors] using parseDbResult_err_mem s c r1 e1 hp
  · intro T z b sc ce t1 e tr h
    cases b with
    | some e1 =>
      simp only [ExecuteInTransaction] at h
      have he : e1 = e := by
        have h2 := ((Prod.mk.injEq _ _ _ _).mp h).1
        have h3 := ((Prod.mk.injEq _ _ _ _).mp (Option.some.inj h2)).2
        exact Option.some.inj h3
      subst he
      simp [txInputErrors, optErrList]
    | none =>
      cases sc with
      | panicked => simp [ExecuteInTransaction] at h
      | err e1 =>
        simp only [ExecuteInTransaction] at h
        have he : e1 = e := by
          have h2 := ((Prod.mk.injEq _ _ _ _).mp h).1
          have h3 := ((Prod.mk.injEq _ _ _ _).mp (Option.some.inj h2)).2
          exact Option.some.inj h3
        subst he
        simp [txInputErrors, optErrList, scopeErrList]
      | ok r1 =>
        cases ce with
        | none => simp [ExecuteInTransaction] at h
        | some e1 =>
          simp only [ExecuteInTransaction] at h
          have he : e1 = e := by
            have h2 := ((Prod.mk.injEq _ _ _ _).mp h).1
            have h3 := ((Prod.mk.injEq _ _ _ _).mp (Option.some.inj h2)).2
            exact Option.some.inj h3
          subst he
          simp [txInputErrors, optErrList, scopeErrList]

/-- Witness for claim C10 at a concrete failing session and a concrete
failing scope function. -/
theorem c10_witness :
    Query (Shape.strct .nil) (.error (Err.dbErr "x")) = some ([], some (Err.dbErr "x")) ∧
    Err.dbErr "x" ∈ sessionErrors (.error (Err.dbErr "x")) ∧
    Err.scopeErr "y" ∈ txInputErrors (T := Int) none (.err (Err.scopeErr "y")) none :=
  ⟨rfl,
   c10_no_mapping_errors.2.1 (Shape.strct .nil) (.error (Err.dbErr "x")) []
     (Err.dbErr "x") rfl,
   c10_no_mapping_errors.2.2 Int 0 none (.err (Err.scopeErr "y")) none 0
     (Err.scopeErr "y") [TxOp.rollback] rfl⟩

end GoDbx
